import Mathlib

/-!
# Verification of the load-test harness (`scripts/load_test.py`)

A shallow embedding of the load tester.  External effects are made explicit:

* the HTTP service is a function `Request → Response` (what `requests.get` /
  `requests.post` return for a given request);
* JSON parsing of a response body (`resp.json()`) is a function
  `parses : String → Bool` saying whether `json.loads` succeeds on the body;
* the random number generator behind `random.uniform` is an oracle
  `us : Nat → ℚ` of unit-interval samples (one per turn index), and the one
  behind `random.choice` is an oracle `pick` of indices into the alphabet;
* issued requests and sleeps are recorded in a trace of `Event`s;
* a raised Python exception is an `Except.error` carrying the data the
  exception object carries.

Delays and durations (Python floats) are modelled as rationals.
-/

namespace LoadTest

/-- A request issued by the driver: `requests.get(url)` or
`requests.post(url, json=payload)` with the payload dictionary as a list of
key/value pairs. -/
inductive Request where
  | get (url : String)
  | post (url : String) (payload : List (String × String))
deriving DecidableEq

/-- An HTTP response: status code and raw body text (`resp.status_code`,
`resp.text`). -/
structure Response where
  status : Nat
  text : String
deriving DecidableEq

/-- The exceptions `run_single_interview` can raise:
`requests.HTTPError` from `resp.raise_for_status()` (carrying the status code
and the request URL), and the `RuntimeError` raised on a non-JSON turn
response (carrying the session id and the raw body, exactly the two values
interpolated into its message). -/
inductive LoadError where
  | httpError (status : Nat) (url : String)
  | nonJsonResponse (session_id : String) (body : String)
deriving DecidableEq

/-- An observable effect of a session: an issued request together with the
response received, or a `time.sleep` of the given duration. -/
inductive Event where
  | request (req : Request) (resp : Response)
  | sleep (duration : ℚ)
deriving DecidableEq

/-- Is this event an issued request?  (`total_requests` counts exactly
these.) -/
def Event.isRequest : Event → Bool
  | .request _ _ => true
  | .sleep _ => false

/-- Is this event a sleep? -/
def Event.isSleep : Event → Bool
  | .request _ _ => false
  | .sleep _ => true

/-- Number of requests issued in a trace; this is the value of the
`total_requests` counter, which is incremented once per issued request. -/
def requestCount (tr : List Event) : Nat :=
  (tr.filter Event.isRequest).length

/-- The condition under which `resp.raise_for_status()` raises: the status
code is a 4xx client error or a 5xx server error. -/
def errStatus (resp : Response) : Prop :=
  400 ≤ resp.status ∧ resp.status < 600

instance (resp : Response) : Decidable (errStatus resp) := by
  unfold errStatus; infer_instance

/-- Python's `base_url.rstrip('/')`: remove every trailing `'/'`. -/
def rstripSlash (s : String) : String :=
  String.mk ((s.data.reverse.dropWhile fun c => c == '/').reverse)

/-- Landing URL: `f"{base_url.rstrip('/')}/{interview_id}/{session_id}"`. -/
def url_landing (base_url interview_id session_id : String) : String :=
  rstripSlash base_url ++ "/" ++ interview_id ++ "/" ++ session_id

/-- Turn URL: `url_next = f"{base_url.rstrip('/')}/next"`. -/
def url_next (base_url : String) : String :=
  rstripSlash base_url ++ "/next"

/-- Python's `string.ascii_letters`: lower-case then upper-case letters. -/
def ascii_letters : String :=
  "abcdefghijklmnopqrstuvwxyzABCDEFGHIJKLMNOPQRSTUVWXYZ"

/-- Python's `string.digits`. -/
def digits : String :=
  "0123456789"

/-- The alphabet `chars = string.ascii_letters + string.digits`, the alphabet used by
`random_session_id`. -/
def chars : String :=
  ascii_letters ++ digits

/-- Generate a session id, `random_session_id(length)`: join `length` characters, each obtained by
`random.choice(chars)`.  The entropy source is the oracle `pick` giving, for
each position, the index into `chars` that `random.choice` picks (uniformly
distributed over all indices).  The Python default for `length` is 16. -/
def random_session_id (pick : Nat → Fin chars.data.length) (length : Nat) : String :=
  String.mk ((List.range length).map fun i => chars.data.get (pick i))

/-- The `payload` dictionary sent on conversation turn `turn`. -/
def turnPayload (session_id interview_id : String) (turn : Nat) : List (String × String) :=
  [("session_id", session_id),
   ("interview_id", interview_id),
   ("user_message", "Dummy answer turn " ++ toString turn)]

/-- Python's `random.uniform(a, b) = a + (b - a) * u` where `u` is the underlying
`random.random()` sample in `[0, 1]`. -/
def uniformSample (a b u : ℚ) : ℚ :=
  a + (b - a) * u

/-- The `for turn in range(num_turns)` loop of `run_single_interview`,
processing the remaining `k` iterations starting at index `turn`
(the loop itself is `runTurnsAux … num_turns num_turns 0`).  Each iteration:
issue the POST to `/next`, count it, `raise_for_status`, try `resp.json()`
(raising `RuntimeError` with session id and raw body on failure), then sleep
for `random.uniform(min_delay, max_delay)` if this is not the final turn and
`max_delay > 0`.  Returns the trace of events and either `()` (loop
completed) or the raised exception. -/
def runTurnsAux (service : Request → Response) (parses : String → Bool)
    (us : Nat → ℚ) (urlNext session_id interview_id : String)
    (num_turns : Nat) (min_delay max_delay : ℚ) :
    Nat → Nat → List Event × Except LoadError Unit
  | 0, _ => ([], .ok ())
  | k + 1, turn =>
    let req : Request := .post urlNext (turnPayload session_id interview_id turn)
    let resp := service req
    if errStatus resp then
      ([.request req resp], .error (.httpError resp.status urlNext))
    else if parses resp.text then
      let sleeps : List Event :=
        if turn < num_turns - 1 ∧ 0 < max_delay then
          [.sleep (uniformSample min_delay max_delay (us turn))]
        else []
      let rest := runTurnsAux service parses us urlNext session_id interview_id
        num_turns min_delay max_delay k (turn + 1)
      (.request req resp :: (sleeps ++ rest.1), rest.2)
    else
      ([.request req resp], .error (.nonJsonResponse session_id resp.text))

/-- Simulate one interview session, `run_single_interview`: generate a session id, issue the landing GET
(counting it and checking its status), then run the conversation turns.
Returns the event trace together with either the raised exception or the
final `total_requests` (the session duration, a wall-clock measurement, is
not modelled).  `total_requests` is the number of requests in the trace. -/
def run_single_interview (service : Request → Response) (parses : String → Bool)
    (us : Nat → ℚ) (pick : Nat → Fin chars.data.length)
    (base_url interview_id : String) (num_turns : Nat)
    (min_delay max_delay : ℚ) : List Event × Except LoadError Nat :=
  let session_id := random_session_id pick 16
  let urlLanding := url_landing base_url interview_id session_id
  let resp := service (.get urlLanding)
  let ev : Event := .request (.get urlLanding) resp
  if errStatus resp then
    ([ev], .error (.httpError resp.status urlLanding))
  else
    let r := runTurnsAux service parses us (url_next base_url) session_id
      interview_id num_turns min_delay max_delay num_turns 0
    (ev :: r.1, r.2.map fun _ => requestCount (ev :: r.1))

/-- The result-collection loop of `main`:
`for future in as_completed(futures): reqs, _ = future.result(); total_requests += reqs`.
The input list is the per-session outcomes in completion order.
`future.result()` re-raises the exception a failed session task raised, so an
error outcome aborts the loop (and `main`) right there: the sum of the
remaining outcomes is never collected. -/
def collectResults : List (Except LoadError Nat) → Except LoadError Nat
  | [] => .ok 0
  | r :: rs =>
    match r with
    | .error e => .error e
    | .ok n => (collectResults rs).map fun total => total + n

/-- The outcomes of a batch of sessions as submitted by `main`: one
`run_single_interview` per user, all with the same configuration, each with
its own session-id entropy oracle. -/
def batchOutcomes (service : Request → Response) (parses : String → Bool)
    (us : Nat → ℚ) (base_url interview_id : String) (num_turns : Nat)
    (min_delay max_delay : ℚ)
    (picks : List (Nat → Fin chars.data.length)) : List (Except LoadError Nat) :=
  picks.map fun p =>
    (run_single_interview service parses us p base_url interview_id
      num_turns min_delay max_delay).2

/-- Throughput: `rps = total_requests / total_duration if total_duration > 0 else 0.0`. -/
def throughput (total_requests : Nat) (total_duration : ℚ) : ℚ :=
  if 0 < total_duration then (total_requests : ℚ) / total_duration else 0

/-- The turn request POSTed on conversation turn `t` (shorthand used in
statements; in `run_single_interview` the first argument is
`url_next base_url` and the second the generated session id). -/
def turnReq (urlNext session_id interview_id : String) (t : Nat) : Request :=
  .post urlNext (turnPayload session_id interview_id t)

/-- The events a completed turn `t` contributes to a session's trace: its
request/response pair, followed by the sleep taken exactly when `t` is not
the final turn and `max_delay > 0`. -/
def turnEvents (service : Request → Response) (us : Nat → ℚ)
    (urlNext session_id interview_id : String) (num_turns : Nat)
    (min_delay max_delay : ℚ) (t : Nat) : List Event :=
  .request (turnReq urlNext session_id interview_id t)
      (service (turnReq urlNext session_id interview_id t)) ::
    (if t < num_turns - 1 ∧ 0 < max_delay then
      [.sleep (uniformSample min_delay max_delay (us t))]
    else [])

/-! ### Concrete instances used to exercise the model -/

/-- A service answering every request with status 200 and body "ok". -/
def svcOk : Request → Response := fun _ => Response.mk 200 "ok"

/-- A service answering every request with a 500 server error. -/
def svcErr : Request → Response := fun _ => Response.mk 500 "err"

/-- A service that answers 200 everywhere except on the turn whose payload
carries the user message of turn `k`, which gets a 500. -/
def svcFailAt (k : Nat) : Request → Response := fun r =>
  match r with
  | .get _ => Response.mk 200 "ok"
  | .post _ payload =>
    if ("user_message", "Dummy answer turn " ++ toString k) ∈ payload then
      Response.mk 500 "boom"
    else
      Response.mk 200 "ok"

/-- A service that answers 200 everywhere, with body "bad" on the turn whose
payload carries the user message of turn `k` and body "ok" elsewhere. -/
def svcBadBodyAt (k : Nat) : Request → Response := fun r =>
  match r with
  | .get _ => Response.mk 200 "ok"
  | .post _ payload =>
    if ("user_message", "Dummy answer turn " ++ toString k) ∈ payload then
      Response.mk 200 "bad"
    else
      Response.mk 200 "ok"

/-- A parse oracle accepting every body. -/
def parsesAll : String → Bool := fun _ => true

/-- A parse oracle rejecting exactly the body "bad". -/
def parsesNotBad : String → Bool := fun s => !(s == "bad")

/-- A constant unit-interval sample oracle. -/
def us0 : Nat → ℚ := fun _ => 0

/-- A constant alphabet-index oracle. -/
def pick0 : Nat → Fin chars.data.length := fun _ => ⟨0, by decide⟩

/-- Another constant alphabet-index oracle, giving a different session id. -/
def pick1 : Nat → Fin chars.data.length := fun _ => ⟨1, by decide⟩

/-- A service whose landing page is down for exactly one session (the one
with the all-`'a'` session id that `pick0` produces): its landing GET gets a
500, everything else gets a 200. -/
def svcOneSessionDown : Request → Response := fun r =>
  match r with
  | .get url =>
    if url = "x/ID/aaaaaaaaaaaaaaaa" then Response.mk 500 "down"
    else Response.mk 200 "ok"
  | .post _ _ => Response.mk 200 "ok"

/-! ### General lemmas about traces and the turn loop -/

theorem requestCount_nil : requestCount [] = 0 := rfl

theorem requestCount_append (l₁ l₂ : List Event) :
    requestCount (l₁ ++ l₂) = requestCount l₁ + requestCount l₂ := by
  simp [requestCount, List.filter_append]

theorem requestCount_cons_request (req : Request) (resp : Response) (tr : List Event) :
    requestCount (.request req resp :: tr) = requestCount tr + 1 := by
  simp [requestCount, List.filter_cons, Event.isRequest]

theorem requestCount_turnEvents (service : Request → Response) (us : Nat → ℚ)
    (urlNext session_id interview_id : String) (num_turns : Nat)
    (min_delay max_delay : ℚ) (t : Nat) :
    requestCount (turnEvents service us urlNext session_id interview_id
      num_turns min_delay max_delay t) = 1 := by
  unfold turnEvents
  split <;> simp [requestCount, List.filter_cons, List.filter_nil, Event.isRequest]

theorem requestCount_flatMap_turnEvents (service : Request → Response) (us : Nat → ℚ)
    (urlNext session_id interview_id : String) (num_turns : Nat)
    (min_delay max_delay : ℚ) (l : List Nat) :
    requestCount (l.flatMap (turnEvents service us urlNext session_id interview_id
      num_turns min_delay max_delay)) = l.length := by
  induction l with
  | nil => simp [requestCount]
  | cons t ts ih =>
    rw [List.flatMap_cons, requestCount_append, requestCount_turnEvents, ih]
    simp [List.length_cons]
    omega

/-- When every turn in the window `[turn, turn + k)` gets a success status
and a parseable body, the loop completes and its trace is the concatenation
of the per-turn event blocks. -/
theorem runTurnsAux_ok (service : Request → Response) (parses : String → Bool)
    (us : Nat → ℚ) (urlNext session_id interview_id : String)
    (num_turns : Nat) (min_delay max_delay : ℚ) (k : Nat) :
    ∀ turn : Nat,
      (∀ j, turn ≤ j → j < turn + k →
        ¬ errStatus (service (turnReq urlNext session_id interview_id j)) ∧
          parses (service (turnReq urlNext session_id interview_id j)).text = true) →
      runTurnsAux service parses us urlNext session_id interview_id
          num_turns min_delay max_delay k turn
        = ((List.range' turn k).flatMap (turnEvents service us urlNext session_id
            interview_id num_turns min_delay max_delay), .ok ()) := by
  induction k with
  | zero => intro turn _; simp [runTurnsAux]
  | succ k ih =>
    intro turn h
    have h0 := h turn (Nat.le_refl _) (by omega)
    have hrec := ih (turn + 1) (fun j hj1 hj2 => h j (by omega) (by omega))
    rw [runTurnsAux]
    simp only [turnReq] at h0
    rw [if_neg h0.1, if_pos h0.2, hrec]
    rw [List.range'_succ, List.flatMap_cons]
    simp [turnEvents, turnReq]

/-- When the turn at index `k` inside the window gets an error status while
every earlier turn of the window succeeds and parses, the loop aborts with
the `HTTPError` of turn `k`, having issued `k - turn + 1` requests. -/
theorem runTurnsAux_fail_http (service : Request → Response) (parses : String → Bool)
    (us : Nat → ℚ) (urlNext session_id interview_id : String)
    (num_turns : Nat) (min_delay max_delay : ℚ) (k : Nat) (remaining : Nat) :
    ∀ turn : Nat, turn ≤ k → k < turn + remaining →
      (∀ j, turn ≤ j → j < k →
        ¬ errStatus (service (turnReq urlNext session_id interview_id j)) ∧
          parses (service (turnReq urlNext session_id interview_id j)).text = true) →
      errStatus (service (turnReq urlNext session_id interview_id k)) →
      requestCount (runTurnsAux service parses us urlNext session_id interview_id
          num_turns min_delay max_delay remaining turn).1 = k - turn + 1 ∧
      (runTurnsAux service parses us urlNext session_id interview_id
          num_turns min_delay max_delay remaining turn).2
        = .error (.httpError
            (service (turnReq urlNext session_id interview_id k)).status urlNext) := by
  induction remaining with
  | zero => intro turn h1 h2 _ _; omega
  | succ remaining ih =>
    intro turn h1 h2 hok hfail
    rcases Nat.eq_or_lt_of_le h1 with heq | hlt
    · subst heq
      rw [runTurnsAux]
      simp only [turnReq] at hfail
      rw [if_pos hfail]
      refine ⟨?_, ?_⟩
      · simp [requestCount, List.filter_cons, Event.isRequest]
      · simp [turnReq]
    · have h0 := hok turn (Nat.le_refl _) hlt
      have hrec := ih (turn + 1) (by omega) (by omega)
        (fun j hj1 hj2 => hok j (by omega) hj2) hfail
      rw [runTurnsAux]
      simp only [turnReq] at h0
      rw [if_neg h0.1, if_pos h0.2]
      refine ⟨?_, ?_⟩
      · rw [requestCount_cons_request, requestCount_append, hrec.1]
        have : requestCount (if turn < num_turns - 1 ∧ 0 < max_delay then
            [Event.sleep (uniformSample min_delay max_delay (us turn))] else []) = 0 := by
          split <;> simp [requestCount, List.filter_cons, List.filter_nil, Event.isSleep,
            Event.isRequest]
        rw [this]
        omega
      · exact hrec.2

/-- When the turn at index `k` inside the window gets a success status but a
body that does not parse, while every earlier turn of the window succeeds and
parses, the loop aborts with the `RuntimeError` carrying the session id and
the raw body, having issued `k - turn + 1` requests. -/
theorem runTurnsAux_fail_json (service : Request → Response) (parses : String → Bool)
    (us : Nat → ℚ) (urlNext session_id interview_id : String)
    (num_turns : Nat) (min_delay max_delay : ℚ) (k : Nat) (remaining : Nat) :
    ∀ turn : Nat, turn ≤ k → k < turn + remaining →
      (∀ j, turn ≤ j → j < k →
        ¬ errStatus (service (turnReq urlNext session_id interview_id j)) ∧
          parses (service (turnReq urlNext session_id interview_id j)).text = true) →
      ¬ errStatus (service (turnReq urlNext session_id interview_id k)) →
      parses (service (turnReq urlNext session_id interview_id k)).text = false →
      requestCount (runTurnsAux service parses us urlNext session_id interview_id
          num_turns min_delay max_delay remaining turn).1 = k - turn + 1 ∧
      (runTurnsAux service parses us urlNext session_id interview_id
          num_turns min_delay max_delay remaining turn).2
        = .error (.nonJsonResponse session_id
            (service (turnReq urlNext session_id interview_id k)).text) := by
  induction remaining with
  | zero => intro turn h1 h2 _ _ _; omega
  | succ remaining ih =>
    intro turn h1 h2 hok hst hbad
    rcases Nat.eq_or_lt_of_le h1 with heq | hlt
    · subst heq
      rw [runTurnsAux]
      simp only [turnReq] at hst hbad
      rw [if_neg hst, hbad]
      refine ⟨?_, ?_⟩
      · simp [requestCount, List.filter_cons, Event.isRequest]
      · simp [turnReq]
    · have h0 := hok turn (Nat.le_refl _) hlt
      have hrec := ih (turn + 1) (by omega) (by omega)
        (fun j hj1 hj2 => hok j (by omega) hj2) hst hbad
      rw [runTurnsAux]
      simp only [turnReq] at h0
      rw [if_neg h0.1, if_pos h0.2]
      refine ⟨?_, ?_⟩
      · rw [requestCount_cons_request, requestCount_append, hrec.1]
        have : requestCount (if turn < num_turns - 1 ∧ 0 < max_delay then
            [Event.sleep (uniformSample min_delay max_delay (us turn))] else []) = 0 := by
          split <;> simp [requestCount, List.filter_cons, List.filter_nil, Event.isSleep,
            Event.isRequest]
        rw [this]
        omega
      · exact hrec.2

/-- With a non-positive delay bound, the turn loop never emits a sleep:
every event of its trace is a request. -/
theorem runTurnsAux_no_sleep (service : Request → Response) (parses : String → Bool)
    (us : Nat → ℚ) (urlNext session_id interview_id : String)
    (num_turns : Nat) (min_delay max_delay : ℚ) (hd : max_delay ≤ 0) (k : Nat) :
    ∀ turn : Nat, ∀ e ∈ (runTurnsAux service parses us urlNext session_id interview_id
        num_turns min_delay max_delay k turn).1, e.isRequest = true := by
  induction k with
  | zero => intro turn e he; simp [runTurnsAux] at he
  | succ k ih =>
    intro turn e he
    rw [runTurnsAux] at he
    set resp := service (.post urlNext (turnPayload session_id interview_id turn)) with hresp
    by_cases h1 : errStatus resp
    · rw [if_pos h1] at he
      simp at he
      subst he
      rfl
    · rw [if_neg h1] at he
      by_cases h2 : parses resp.text = true
      · rw [if_pos h2] at he
        have hcond : ¬ (turn < num_turns - 1 ∧ 0 < max_delay) := by
          rintro ⟨-, hpos⟩
          exact absurd (lt_of_lt_of_le hpos hd) (lt_irrefl _)
        rw [if_neg hcond] at he
        simp only [List.nil_append, List.mem_cons] at he
        rcases he with he | he
        · subst he; rfl
        · exact ih (turn + 1) e he
      · rw [if_neg h2] at he
        simp at he
        subst he
        rfl

theorem collectResults_nil : collectResults [] = .ok 0 := rfl

theorem collectResults_cons_ok (n : Nat) (rs : List (Except LoadError Nat)) :
    collectResults (.ok n :: rs) = (collectResults rs).map fun total => total + n := rfl

theorem svcOk_no_err (r : Request) : ¬ errStatus (svcOk r) := by
  simp [svcOk, errStatus]

theorem dropWhileSlash_replicate (k : Nat) (l : List Char) :
    (List.replicate k '/' ++ l).dropWhile (fun c => c == '/')
      = l.dropWhile (fun c => c == '/') := by
  induction k with
  | zero => simp
  | succ k ih => simp [List.replicate_succ, List.dropWhile_cons, ih]

theorem dropWhile_self_idem {α : Type} (p : α → Bool) (l : List α) :
    (l.dropWhile p).dropWhile p = l.dropWhile p := by
  induction l with
  | nil => rfl
  | cons a l ih =>
    by_cases h : p a = true
    · simp [List.dropWhile_cons, h, ih]
    · simp [List.dropWhile_cons, h]

theorem rstripSlash_append_slashes (s : String) (k : Nat) :
    rstripSlash (s ++ String.mk (List.replicate k '/')) = rstripSlash s := by
  unfold rstripSlash
  rw [String.data_append]
  show String.mk (((s.data ++ List.replicate k '/').reverse.dropWhile
    fun c => c == '/').reverse) = _
  rw [List.reverse_append, List.reverse_replicate, dropWhileSlash_replicate]

theorem rstripSlash_idem (s : String) :
    rstripSlash (rstripSlash s) = rstripSlash s := by
  unfold rstripSlash
  show String.mk ((((s.data.reverse.dropWhile fun c => c == '/').reverse).reverse.dropWhile
    fun c => c == '/').reverse) = _
  rw [List.reverse_reverse, dropWhile_self_idem]

/-! ### The claims -/

/-- C1: against a service that answers every request with a success status
and a parseable body, every session returns request count `1 + num_turns`
(one landing request plus one per turn), and the aggregated total over a
batch of `N = picks.length` users is `N * (1 + num_turns)`. -/
theorem C1_total_requests (service : Request → Response) (parses : String → Bool)
    (us : Nat → ℚ) (base_url interview_id : String) (num_turns : Nat)
    (min_delay max_delay : ℚ)
    (hs : ∀ r, ¬ errStatus (service r))
    (hp : ∀ r, parses (service r).text = true) :
    (∀ pick, (run_single_interview service parses us pick base_url interview_id
        num_turns min_delay max_delay).2 = .ok (1 + num_turns))
  ∧ (∀ picks : List (Nat → Fin chars.data.length),
      collectResults (batchOutcomes service parses us base_url interview_id
        num_turns min_delay max_delay picks)
        = .ok (picks.length * (1 + num_turns))) := by
  have h1 : ∀ pick, (run_single_interview service parses us pick base_url interview_id
      num_turns min_delay max_delay).2 = .ok (1 + num_turns) := by
    intro pick
    simp only [run_single_interview]
    rw [if_neg (hs _)]
    rw [runTurnsAux_ok service parses us (url_next base_url)
      (random_session_id pick 16) interview_id num_turns min_delay max_delay
      num_turns 0 (fun j _ _ => ⟨hs _, hp _⟩)]
    simp only [Except.map]
    rw [requestCount_cons_request, requestCount_flatMap_turnEvents]
    rw [List.length_range']
    rw [Nat.add_comm]
  refine ⟨h1, ?_⟩
  intro picks
  induction picks with
  | nil => simp [batchOutcomes, collectResults]
  | cons p ps ih =>
    simp only [batchOutcomes, List.map_cons]
    rw [h1 p, collectResults_cons_ok]
    simp only [batchOutcomes] at ih
    rw [ih]
    simp only [Except.map, List.length_cons]
    rw [Nat.succ_mul]

/-- C1 witness: two users, two turns each, against an all-success service:
the aggregate is `2 * (1 + 2) = 6` requests. -/
theorem C1_witness :
    collectResults (batchOutcomes svcOk parsesAll us0 "x" "ID" 2 0 0 [pick0, pick1])
      = .ok (2 * (1 + 2)) :=
  (C1_total_requests svcOk parsesAll us0 "x" "ID" 2 0 0
    svcOk_no_err (fun _ => rfl)).2 [pick0, pick1]

/-- C2 (code bug): in `main`, `future.result()` re-raises a failed session's
exception with no handler, so the failure escapes and aborts the collection
loop.  Concretely: a two-session batch in which only the first session's
landing page is down yields the outcomes
`[HTTPError 500, ok 2]`, and the collection loop applied to them returns the
error — the second session's 2 requests are never added to the total, in
contradiction with the claimed propagation policy. -/
theorem C2_failure_aborts_collection :
    batchOutcomes svcOneSessionDown parsesAll us0 "x" "ID" 1 0 0 [pick0, pick1]
      = [.error (.httpError 500 "x/ID/aaaaaaaaaaaaaaaa"), .ok 2]
  ∧ collectResults [.error (.httpError 500 "x/ID/aaaaaaaaaaaaaaaa"), .ok 2]
      = .error (.httpError 500 "x/ID/aaaaaaaaaaaaaaaa") :=
  ⟨rfl, rfl⟩

/-- C3 (amended): a session whose turn `k` is the first to receive a
non-success status contributes exactly `k + 2` requests (landing plus turns
`0..k`) and aborts with the `HTTPError` failure outcome of that turn — an
outcome carrying the status code and the shared `/next` turn URL, but not
the turn index `k`. -/
theorem C3_turn_failure (service : Request → Response) (parses : String → Bool)
    (us : Nat → ℚ) (pick : Nat → Fin chars.data.length)
    (base_url interview_id : String) (num_turns : Nat)
    (min_delay max_delay : ℚ) (k : Nat)
    (hk : k < num_turns)
    (hland : ¬ errStatus (service (.get (url_landing base_url interview_id
      (random_session_id pick 16)))))
    (hok : ∀ j, j < k →
      ¬ errStatus (service (turnReq (url_next base_url) (random_session_id pick 16)
          interview_id j)) ∧
        parses (service (turnReq (url_next base_url) (random_session_id pick 16)
          interview_id j)).text = true)
    (hfail : errStatus (service (turnReq (url_next base_url) (random_session_id pick 16)
      interview_id k))) :
    requestCount (run_single_interview service parses us pick base_url interview_id
        num_turns min_delay max_delay).1 = k + 2
  ∧ (run_single_interview service parses us pick base_url interview_id
        num_turns min_delay max_delay).2
      = .error (.httpError
          (service (turnReq (url_next base_url) (random_session_id pick 16)
            interview_id k)).status
          (url_next base_url)) := by
  have hb := runTurnsAux_fail_http service parses us (url_next base_url)
    (random_session_id pick 16) interview_id num_turns min_delay max_delay k num_turns
    0 (Nat.zero_le _) (by omega) (fun j _ hj => hok j hj) hfail
  simp only [run_single_interview]
  rw [if_neg hland]
  refine ⟨?_, ?_⟩
  · rw [requestCount_cons_request, hb.1]
    omega
  · rw [hb.2]
    rfl

/-- C3 witness: three configured turns against a service whose turn 1 is
down: the session issues `1 + 2 = 3` requests and raises the 500 `HTTPError`
for the turn URL. -/
theorem C3_witness :
    requestCount (run_single_interview (svcFailAt 1) parsesAll us0 pick0
        "x" "ID" 3 0 0).1 = 1 + 2
  ∧ (run_single_interview (svcFailAt 1) parsesAll us0 pick0 "x" "ID" 3 0 0).2
      = .error (.httpError 500 (url_next "x")) :=
  C3_turn_failure (svcFailAt 1) parsesAll us0 pick0 "x" "ID" 3 0 0 1
    (by omega) (by decide)
    (fun j hj => by
      have hj0 : j = 0 := by omega
      subst hj0
      exact ⟨by decide, rfl⟩)
    (by decide)

/-- C3 counterexample: the failure outcome does not identify the failing
turn.  Two sessions differing only in which turn receives the non-success
status — turn 0 in one, turn 1 in the other, witnessed by their different
request totals — produce literally equal failure outcomes, so no reading of
the outcome can recover the turn index. -/
theorem C3_counterexample :
    (run_single_interview (svcFailAt 0) parsesAll us0 pick0 "x" "ID" 3 0 0).2
      = (run_single_interview (svcFailAt 1) parsesAll us0 pick0 "x" "ID" 3 0 0).2
  ∧ requestCount (run_single_interview (svcFailAt 0) parsesAll us0 pick0
      "x" "ID" 3 0 0).1 = 2
  ∧ requestCount (run_single_interview (svcFailAt 1) parsesAll us0 pick0
      "x" "ID" 3 0 0).1 = 3 :=
  ⟨rfl, rfl, rfl⟩

/-- C4: a session whose landing request gets a non-success status aborts at
once: its whole trace is that single landing request (so exactly 1 request
and no turn requests, hence no body parsed and no sleep), and the outcome is
the landing `HTTPError`. -/
theorem C4_landing_failure (service : Request → Response) (parses : String → Bool)
    (us : Nat → ℚ) (pick : Nat → Fin chars.data.length)
    (base_url interview_id : String) (num_turns : Nat) (min_delay max_delay : ℚ)
    (h : errStatus (service (.get (url_landing base_url interview_id
      (random_session_id pick 16))))) :
    run_single_interview service parses us pick base_url interview_id
        num_turns min_delay max_delay
      = ([.request (.get (url_landing base_url interview_id (random_session_id pick 16)))
            (service (.get (url_landing base_url interview_id (random_session_id pick 16))))],
         .error (.httpError
           (service (.get (url_landing base_url interview_id
             (random_session_id pick 16)))).status
           (url_landing base_url interview_id (random_session_id pick 16)))) := by
  simp only [run_single_interview]
  rw [if_pos h]

/-- C4 witness: a service whose every answer is a 500 makes the session stop
after the landing request with the landing `HTTPError`. -/
theorem C4_witness :
    run_single_interview svcErr parsesAll us0 pick0 "x" "ID" 3 0 0
      = ([.request (.get (url_landing "x" "ID" (random_session_id pick0 16)))
            (Response.mk 500 "err")],
         .error (.httpError 500 (url_landing "x" "ID" (random_session_id pick0 16)))) :=
  C4_landing_failure svcErr parsesAll us0 pick0 "x" "ID" 3 0 0 (by decide)

/-- C5: when turn `k` is the first irregular turn and its response has a
success status but a body rejected by the JSON parser, the session fails
with the `RuntimeError` outcome carrying exactly the session identifier and
the raw response body (the two values interpolated into its message), after
`k + 2` requests. -/
theorem C5_non_json_body (service : Request → Response) (parses : String → Bool)
    (us : Nat → ℚ) (pick : Nat → Fin chars.data.length)
    (base_url interview_id : String) (num_turns : Nat)
    (min_delay max_delay : ℚ) (k : Nat)
    (hk : k < num_turns)
    (hland : ¬ errStatus (service (.get (url_landing base_url interview_id
      (random_session_id pick 16)))))
    (hok : ∀ j, j < k →
      ¬ errStatus (service (turnReq (url_next base_url) (random_session_id pick 16)
          interview_id j)) ∧
        parses (service (turnReq (url_next base_url) (random_session_id pick 16)
          interview_id j)).text = true)
    (hst : ¬ errStatus (service (turnReq (url_next base_url) (random_session_id pick 16)
      interview_id k)))
    (hbad : parses (service (turnReq (url_next base_url) (random_session_id pick 16)
      interview_id k)).text = false) :
    (run_single_interview service parses us pick base_url interview_id
        num_turns min_delay max_delay).2
      = .error (.nonJsonResponse (random_session_id pick 16)
          (service (turnReq (url_next base_url) (random_session_id pick 16)
            interview_id k)).text)
  ∧ requestCount (run_single_interview service parses us pick base_url interview_id
        num_turns min_delay max_delay).1 = k + 2 := by
  have hb := runTurnsAux_fail_json service parses us (url_next base_url)
    (random_session_id pick 16) interview_id num_turns min_delay max_delay k num_turns
    0 (Nat.zero_le _) (by omega) (fun j _ hj => hok j hj) hst hbad
  simp only [run_single_interview]
  rw [if_neg hland]
  refine ⟨?_, ?_⟩
  · rw [hb.2]
    rfl
  · rw [requestCount_cons_request, hb.1]
    omega

/-- C5 witness: turn 0 answers 200 with the unparseable body "bad": the
session fails with the `RuntimeError` carrying the generated session id and
that raw body, after 2 requests. -/
theorem C5_witness :
    (run_single_interview (svcBadBodyAt 0) parsesNotBad us0 pick0 "x" "ID" 2 0 0).2
      = .error (.nonJsonResponse (random_session_id pick0 16) "bad")
  ∧ requestCount (run_single_interview (svcBadBodyAt 0) parsesNotBad us0 pick0
      "x" "ID" 2 0 0).1 = 0 + 2 :=
  C5_non_json_body (svcBadBodyAt 0) parsesNotBad us0 pick0 "x" "ID" 2 0 0 0
    (by omega) (by decide) (fun j hj => absurd hj (by omega)) (by decide) rfl

/-- C6: against an all-success service the session trace is the landing
request followed by, for each turn `t`, the turn request and then — exactly
when `t` is not the final turn and `max_delay > 0` (see `turnEvents`) — one
sleep of duration `uniformSample min_delay max_delay (us t)`, i.e.
`random.uniform(min_delay, max_delay)` applied to the drawn sample.  The
second conjunct bounds that duration in `[min_delay, max_delay]` for any
unit-interval sample; the third says that with a non-positive `max_delay` no
session — whatever the service or parser does — ever sleeps. -/
theorem C6_pause_policy (service : Request → Response) (parses : String → Bool)
    (us : Nat → ℚ) (pick : Nat → Fin chars.data.length)
    (base_url interview_id : String) (num_turns : Nat) (min_delay max_delay : ℚ)
    (hs : ∀ r, ¬ errStatus (service r))
    (hp : ∀ r, parses (service r).text = true) :
    (run_single_interview service parses us pick base_url interview_id
        num_turns min_delay max_delay).1
      = .request (.get (url_landing base_url interview_id (random_session_id pick 16)))
          (service (.get (url_landing base_url interview_id (random_session_id pick 16)))) ::
        (List.range num_turns).flatMap (turnEvents service us (url_next base_url)
          (random_session_id pick 16) interview_id num_turns min_delay max_delay)
  ∧ (min_delay ≤ max_delay → ∀ t, 0 ≤ us t → us t ≤ 1 →
      min_delay ≤ uniformSample min_delay max_delay (us t)
        ∧ uniformSample min_delay max_delay (us t) ≤ max_delay)
  ∧ (∀ (service2 : Request → Response) (parses2 : String → Bool), max_delay ≤ 0 →
      ∀ e ∈ (run_single_interview service2 parses2 us pick base_url interview_id
          num_turns min_delay max_delay).1, e.isRequest = true) := by
  refine ⟨?_, ?_, ?_⟩
  · simp only [run_single_interview]
    rw [if_neg (hs _)]
    rw [runTurnsAux_ok service parses us (url_next base_url)
      (random_session_id pick 16) interview_id num_turns min_delay max_delay
      num_turns 0 (fun j _ _ => ⟨hs _, hp _⟩)]
    rw [List.range_eq_range']
  · intro hle t hu0 hu1
    unfold uniformSample
    constructor
    · nlinarith
    · nlinarith
  · intro service2 parses2 hd e he
    simp only [run_single_interview] at he
    by_cases h : errStatus (service2 (.get (url_landing base_url interview_id
        (random_session_id pick 16))))
    · rw [if_pos h] at he
      simp only [List.mem_singleton] at he
      subst he
      rfl
    · rw [if_neg h] at he
      simp only [List.mem_cons] at he
      rcases he with he | he
      · subst he
        rfl
      · exact runTurnsAux_no_sleep service2 parses2 us (url_next base_url)
          (random_session_id pick 16) interview_id num_turns min_delay max_delay hd
          num_turns 0 e he

/-- C6 witness: two turns, delay bounds `[0, 0]`, all-success service: the
trace is the landing request and the two turn requests with no sleep at
all (the per-turn blocks of `turnEvents` are sleepless since the delay
bound is 0). -/
theorem C6_witness :
    (run_single_interview svcOk parsesAll us0 pick0 "x" "ID" 2 0 0).1
      = .request (.get (url_landing "x" "ID" (random_session_id pick0 16)))
          (svcOk (.get (url_landing "x" "ID" (random_session_id pick0 16)))) ::
        (List.range 2).flatMap (turnEvents svcOk us0 (url_next "x")
          (random_session_id pick0 16) "ID" 2 0 0) :=
  (C6_pause_policy svcOk parsesAll us0 pick0 "x" "ID" 2 0 0
    svcOk_no_err (fun _ => rfl)).1

/-- C7: reported throughput is `total_requests / total_duration` whenever
the duration is positive — in particular `100 / 10 = 10` requests per
second — and the zero-duration guard yields `0` (the division branch is
never taken, so no division by zero occurs). -/
theorem C7_throughput (total_requests : Nat) (total_duration : ℚ)
    (hd : 0 < total_duration) :
    throughput total_requests total_duration
      = (total_requests : ℚ) / total_duration
  ∧ throughput total_requests 0 = 0
  ∧ throughput 100 10 = 10 := by
  refine ⟨if_pos hd, ?_, ?_⟩
  · simp [throughput]
  · norm_num [throughput]

/-- C7 witness: 100 requests over 10 seconds report 10 requests per second,
and a zero duration reports 0. -/
theorem C7_witness : throughput 100 10 = 10 ∧ throughput 100 0 = 0 :=
  ⟨(C7_throughput 100 10 (by norm_num)).2.2,
   (C7_throughput 100 10 (by norm_num)).2.1⟩

/-- C8: a generated session id has exactly the requested length (16 for the
Python default) and every one of its characters belongs to the alphabet
`chars`; that alphabet has 62 pairwise-distinct symbols, each an upper-case
letter, a lower-case letter, or a digit; and indexing into it is injective,
so a uniformly chosen index (the contract of `random.choice`) yields a
uniformly chosen character of the 62-symbol alphabet. -/
theorem C8_session_id (pick : Nat → Fin chars.data.length) (n : Nat) :
    (random_session_id pick n).length = n
  ∧ (random_session_id pick 16).length = 16
  ∧ (∀ c ∈ (random_session_id pick n).data, c ∈ chars.data)
  ∧ chars.data.Nodup
  ∧ chars.data.length = 62
  ∧ (∀ c ∈ chars.data, c.isUpper = true ∨ c.isLower = true ∨ c.isDigit = true)
  ∧ (∀ a b : Fin chars.data.length, chars.data.get a = chars.data.get b → a = b) := by
  refine ⟨?_, ?_, ?_, by decide, by decide, by decide, ?_⟩
  · simp [random_session_id]
  · simp [random_session_id]
  · intro c hc
    simp only [random_session_id] at hc
    obtain ⟨i, -, rfl⟩ := List.mem_map.1 hc
    exact List.get_mem _ (pick i).1 (pick i).2
  · intro a b hab
    exact (List.Nodup.get_inj_iff (by decide)).1 hab

/-- C8 witness: with a concrete index oracle and length 5, the id has
length 5, and the alphabet facts are instantiated. -/
theorem C8_witness :
    (random_session_id pick0 5).length = 5 ∧ chars.data.length = 62 :=
  ⟨(C8_session_id pick0 5).1, (C8_session_id pick0 5).2.2.2.2.1⟩

/-- C9: with zero configured turns, a session whose landing request succeeds
is exactly the landing request: its whole trace is that one request (so one
request, no sleep) and the outcome is request count 1.  The right-hand side
mentions neither the parse oracle nor the delay sampler, so no body is ever
parsed and no delay ever drawn. -/
theorem C9_zero_turns (service : Request → Response) (parses : String → Bool)
    (us : Nat → ℚ) (pick : Nat → Fin chars.data.length)
    (base_url interview_id : String) (min_delay max_delay : ℚ)
    (h : ¬ errStatus (service (.get (url_landing base_url interview_id
      (random_session_id pick 16))))) :
    run_single_interview service parses us pick base_url interview_id
        0 min_delay max_delay
      = ([.request (.get (url_landing base_url interview_id (random_session_id pick 16)))
            (service (.get (url_landing base_url interview_id (random_session_id pick 16))))],
         .ok 1) := by
  simp only [run_single_interview]
  rw [if_neg h]
  rfl

/-- C9 witness: zero turns against the all-success service: one landing
request, outcome `ok 1`. -/
theorem C9_witness :
    run_single_interview svcOk parsesAll us0 pick0 "x" "ID" 0 1 3
      = ([.request (.get (url_landing "x" "ID" (random_session_id pick0 16)))
            (Response.mk 200 "ok")],
         .ok 1) :=
  C9_zero_turns svcOk parsesAll us0 pick0 "x" "ID" 1 3 (svcOk_no_err _)

/-- C10: appending any number of trailing slashes to the base URL changes
neither the landing URL nor the turn URL, because both are built from
`rstrip('/')` of the base; and that stripping is idempotent. -/
theorem C10_url_normalization (base_url interview_id session_id : String) (k : Nat) :
    url_landing (base_url ++ String.mk (List.replicate k '/')) interview_id session_id
      = url_landing base_url interview_id session_id
  ∧ url_next (base_url ++ String.mk (List.replicate k '/')) = url_next base_url
  ∧ rstripSlash (rstripSlash base_url) = rstripSlash base_url := by
  refine ⟨?_, ?_, rstripSlash_idem base_url⟩
  · simp [url_landing, rstripSlash_append_slashes]
  · simp [url_next, rstripSlash_append_slashes]

/-- C10 witness: three trailing slashes on a concrete base URL leave both
built URLs unchanged, and stripping is idempotent there. -/
theorem C10_witness :
    url_landing ("http://x" ++ String.mk (List.replicate 3 '/')) "ID" "s"
      = url_landing "http://x" "ID" "s"
  ∧ rstripSlash (rstripSlash "http://x") = rstripSlash "http://x" :=
  ⟨(C10_url_normalization "http://x" "ID" "s" 3).1,
   (C10_url_normalization "http://x" "ID" "s" 3).2.2⟩

end LoadTest
